import Mathlib

/-!
Shallow embedding of `message/message.go` from LinioIT/rabbitmq-worker.

The Go file defines a struct `HttpRequestMessage`, a parser `Parse` that turns
a RabbitMQ delivery into a populated message, a helper `getRetryInfo` that
extracts retry metadata from the untyped AMQP header table, and a dispatcher
`HttpPost` that performs one HTTP POST attempt and pushes exactly one outcome
record onto a channel.

Modelling choices:
- AMQP header values are dynamically typed in Go (`interface{}`); we model the
  runtime types the code inspects with the inductive `AmqpValue`.  Go type
  assertions without the `, ok` form panic on mismatch; functions that can
  panic return `Option` (with `none` = panic) and `Parse` returns a
  `ParseResult` with an explicit `panic` constructor.
- `json.Unmarshal` of the delivery body is a library call; `Parse` is
  parameterised by a decode function `dec` from raw body bytes to the decoded
  field struct (`none` = unmarshal error).
- `time.Now()` is passed in as `now`; a `time.Time` value is represented by
  its unix seconds, and the zero `time.Time` of the delivery timestamp by
  `Option.none`.
- Go maps written by `msg.Headers[key] = val` are modelled as association
  lists with an overwrite-insert `setKey`.
- The channel send `ackCh <- msg` is modelled by returning the list of records
  sent, in execution order.
- `md5.Sum` / `fmt.Sprintf "%x"` are implemented bit-faithfully (RFC 1321)
  over byte lists, with 32-bit words as `Nat` reduced `% 2^32`.
-/

/-- Runtime types of AMQP header values that `message.go` inspects:
`int64`, `string`, `[]interface{}`, `amqp.Table`, `time.Time` (carried as unix
seconds), a nil interface value, and any other runtime type. -/
inductive AmqpValue where
  | vint (i : Int)
  | vstr (s : String)
  | vlist (l : List AmqpValue)
  | vtable (t : List (String × AmqpValue))
  | vtime (unix : Int)
  | vnil
  | vother

/-- Lookup in an AMQP table (Go map access `tbl[key]` with the `, ok` form). -/
def lookupAmqp (tbl : List (String × AmqpValue)) (key : String) : Option AmqpValue :=
  match tbl with
  | [] => none
  | (k, v) :: rest => if k = key then some v else lookupAmqp rest key

/-- `getRetryInfo` from message.go.  Returns `some (retryCnt, firstRejectionTime)`
on normal completion and `none` when one of the Go type assertions
(`deathHistory.([]interface{})`, `queueDeathHistory[1].(amqp.Table)`,
`retries.(int64)`, `rejectTime.(time.Time)`) panics. -/
def getRetryInfo (rmqHeaders : List (String × AmqpValue)) : Option (Int × Int) :=
  match lookupAmqp rmqHeaders "x-death" with
  | none => some (0, 0)
  | some deathHistory =>
    match deathHistory with
    | .vlist queueDeathHistory =>
      match queueDeathHistory with
      | [_, secondEntry] =>
        match secondEntry with
        | .vtable mainQueueDeathHistory =>
          let cnt? : Option Int :=
            match lookupAmqp mainQueueDeathHistory "count" with
            | none => some 0
            | some (.vint i) => some i
            | some _ => none
          let tm? : Option Int :=
            match lookupAmqp mainQueueDeathHistory "time" with
            | none => some 0
            | some .vnil => some 0
            | some (.vtime u) => some u
            | some _ => none
          match cnt?, tm? with
          | some c, some t => some (c, t)
          | _, _ => none
        | _ => none
      | _ => some (0, 0)
    | _ => none

/-! ## MD5 (RFC 1321), as used by `md5.Sum` + `fmt.Sprintf "%x"` in Parse -/

/-- Reduce to a 32-bit word. -/
def w32 (n : Nat) : Nat := n % 4294967296

/-- 32-bit left rotation. -/
def rotl32 (x s : Nat) : Nat :=
  w32 (Nat.lor (Nat.shiftLeft (w32 x) s) (Nat.shiftRight (w32 x) (32 - s)))

/-- The 64 MD5 sine-table constants. -/
def md5K : List Nat :=
  [0xd76aa478, 0xe8c7b756, 0x242070db, 0xc1bdceee,
   0xf57c0faf, 0x4787c62a, 0xa8304613, 0xfd469501,
   0x698098d8, 0x8b44f7af, 0xffff5bb1, 0x895cd7be,
   0x6b901122, 0xfd987193, 0xa679438e, 0x49b40821,
   0xf61e2562, 0xc040b340, 0x265e5a51, 0xe9b6c7aa,
   0xd62f105d, 0x02441453, 0xd8a1e681, 0xe7d3fbc8,
   0x21e1cde6, 0xc33707d6, 0xf4d50d87, 0x455a14ed,
   0xa9e3e905, 0xfcefa3f8, 0x676f02d9, 0x8d2a4c8a,
   0xfffa3942, 0x8771f681, 0x6d9d6122, 0xfde5380c,
   0xa4beea44, 0x4bdecfa9, 0xf6bb4b60, 0xbebfbc70,
   0x289b7ec6, 0xeaa127fa, 0xd4ef3085, 0x04881d05,
   0xd9d4d039, 0xe6db99e5, 0x1fa27cf8, 0xc4ac5665,
   0xf4292244, 0x432aff97, 0xab9423a7, 0xfc93a039,
   0x655b59c3, 0x8f0ccc92, 0xffeff47d, 0x85845dd1,
   0x6fa87e4f, 0xfe2ce6e0, 0xa3014314, 0x4e0811a1,
   0xf7537e82, 0xbd3af235, 0x2ad7d2bb, 0xeb86d391]

/-- The 64 MD5 per-round shift amounts. -/
def md5S : List Nat :=
  [7, 12, 17, 22, 7, 12, 17, 22, 7, 12, 17, 22, 7, 12, 17, 22,
   5, 9, 14, 20, 5, 9, 14, 20, 5, 9, 14, 20, 5, 9, 14, 20,
   4, 11, 16, 23, 4, 11, 16, 23, 4, 11, 16, 23, 4, 11, 16, 23,
   6, 10, 15, 21, 6, 10, 15, 21, 6, 10, 15, 21, 6, 10, 15, 21]

/-- MD5 round function: F, G, H, I depending on the round index. -/
def md5F (i b c d : Nat) : Nat :=
  if i < 16 then Nat.lor (Nat.land b c) (Nat.land (Nat.xor b 0xffffffff) d)
  else if i < 32 then Nat.lor (Nat.land d b) (Nat.land (Nat.xor d 0xffffffff) c)
  else if i < 48 then Nat.xor (Nat.xor b c) d
  else Nat.xor c (Nat.lor b (Nat.xor (w32 d) 0xffffffff))

/-- MD5 message-word index for round `i`. -/
def md5G (i : Nat) : Nat :=
  if i < 16 then i
  else if i < 32 then (5 * i + 1) % 16
  else if i < 48 then (3 * i + 5) % 16
  else (7 * i) % 16

/-- Little-endian bytes of `n`, `k` bytes long. -/
def leBytes (n k : Nat) : List Nat :=
  (List.range k).map (fun i => (Nat.shiftRight n (8 * i)) % 256)

/-- A 32-bit word from 4 little-endian bytes. -/
def wordLE (b : List Nat) : Nat :=
  match b with
  | [b0, b1, b2, b3] => b0 + 256 * b1 + 65536 * b2 + 16777216 * b3
  | _ => 0

/-- Word `i` (0..15) of a 64-byte block, little-endian. -/
def blockWord (blk : List Nat) (i : Nat) : Nat :=
  wordLE ((blk.drop (4 * i)).take 4)

/-- One MD5 round on the state `(a, b, c, d)`. -/
def md5Round (m : Nat → Nat) (st : Nat × Nat × Nat × Nat) (i : Nat) :
    Nat × Nat × Nat × Nat :=
  let (a, b, c, d) := st
  let f := w32 (md5F i b c d + a + md5K.getD i 0 + m (md5G i))
  (d, w32 (b + rotl32 f (md5S.getD i 0)), b, c)

/-- Process one 64-byte block. -/
def md5Block (h : Nat × Nat × Nat × Nat) (blk : List Nat) : Nat × Nat × Nat × Nat :=
  let (a0, b0, c0, d0) := h
  let (a, b, c, d) := (List.range 64).foldl (md5Round (blockWord blk)) (a0, b0, c0, d0)
  (w32 (a0 + a), w32 (b0 + b), w32 (c0 + c), w32 (d0 + d))

/-- MD5 padding: 0x80, zeros to 56 mod 64, then the bit length as 8 LE bytes. -/
def md5Pad (msg : List Nat) : List Nat :=
  let len := msg.length
  let padLen := (120 - (len + 1) % 64) % 64
  msg ++ [0x80] ++ List.replicate padLen 0 ++ leBytes ((len * 8) % 18446744073709551616) 8

/-- Split a byte list into 64-byte chunks; structural recursion on a fuel
bound (the list length suffices, since every chunk consumes at least one
element). -/
def chunks64Go (fuel : Nat) (l : List Nat) : List (List Nat) :=
  match fuel, l with
  | 0, _ => []
  | _, [] => []
  | fuel + 1, x :: xs => ((x :: xs).take 64) :: chunks64Go fuel ((x :: xs).drop 64)

/-- Split a byte list into 64-byte chunks. -/
def chunks64 (l : List Nat) : List (List Nat) := chunks64Go l.length l

/-- The 16-byte MD5 digest of a byte list (`md5.Sum` in Go). -/
def md5Sum (msg : List Nat) : List Nat :=
  let (a, b, c, d) :=
    (chunks64 (md5Pad msg)).foldl md5Block (0x67452301, 0xefcdab89, 0x98badcfe, 0x10325476)
  leBytes a 4 ++ leBytes b 4 ++ leBytes c 4 ++ leBytes d 4

/-- The sixteen lowercase hex digits. -/
def hexDigits : List Char := "0123456789abcdef".data

/-- Two lowercase hex digits of a byte. -/
def byteHex (b : Nat) : String :=
  String.mk [hexDigits.getD (b / 16) '0', hexDigits.getD (b % 16) '0']

/-- `fmt.Sprintf "%x" (md5.Sum msg)`: the 32-char lowercase hex MD5 digest. -/
def md5Hex (msg : List Nat) : String :=
  String.join ((md5Sum msg).map byteHex)

/-- The byte list of an ASCII string (for ASCII text, the code points are
exactly the UTF-8 bytes); used to write concrete raw message bodies. -/
def asciiBytes (s : String) : List Nat :=
  s.data.map Char.toNat

/-! ## Data model -/

/-- The local struct `MessageFields` that `Parse` json-decodes the delivery
body into: `Url string`, `Headers []map[string]string`, `Body string`.
Each decoded JSON object is modelled as an association list (a decoded Go map
has unique keys, so iteration order within one map is immaterial). -/
structure MessageFields where
  url : String
  headers : List (List (String × String))
  body : String

/-- The `HttpRequestMessage` struct of message.go.  The AMQP `Delivery` field
is the input envelope itself and is not duplicated here.  `httpErr` is the Go
`error` field, `none` = nil, `some s` = an error whose `Error()` text is `s`. -/
structure HttpRequestMessage where
  messageId : String
  url : String
  headers : List (String × String)
  body : String
  timestamp : Int
  expiration : Int
  retryCnt : Int
  firstRejectionTime : Int
  httpStatusMsg : String
  httpRespBody : String
  httpErr : Option String
  drop : Bool

/-- The Go zero value of `HttpRequestMessage`, which `Parse` populates. -/
def emptyMsg : HttpRequestMessage :=
  { messageId := "", url := "", headers := [], body := "", timestamp := 0,
    expiration := 0, retryCnt := 0, firstRejectionTime := 0,
    httpStatusMsg := "", httpRespBody := "", httpErr := none, drop := false }

/-- A RabbitMQ delivery as `Parse` consumes it: raw body bytes, the message
timestamp (`none` = the zero `time.Time`, `some t` = unix seconds `t`), and
the AMQP header table (`none` = nil table). -/
structure Delivery where
  body : List Nat
  timestamp : Option Int
  headers : Option (List (String × AmqpValue))

/-- Go map assignment `m[k] = v` on an association-list map: overwrite the
existing entry for `k`, or append a new one. -/
def setKey (m : List (String × String)) (k v : String) : List (String × String) :=
  match m with
  | [] => [(k, v)]
  | (k', v') :: rest => if k' = k then (k, v) :: rest else (k', v') :: setKey rest k v

/-- Map lookup on the association-list map built by `setKey`. -/
def lookupStr (m : List (String × String)) (k : String) : Option String :=
  match m with
  | [] => none
  | (k', v') :: rest => if k' = k then some v' else lookupStr rest k

/-- The header-flattening loop of `Parse`:
`for _, m := range fields.Headers { for key, val := range m { msg.Headers[key] = val } }`. -/
def flattenHeaders (hs : List (List (String × String))) : List (String × String) :=
  hs.foldl (fun acc m => m.foldl (fun acc p => setKey acc p.1 p.2) acc) []

/-- Specification-side helper: the value of the last occurrence of key `k`
in a flat sequence of key/value pairs, if any. -/
def lastVal (ps : List (String × String)) (k : String) : Option String :=
  match ps with
  | [] => none
  | p :: rest =>
    match lastVal rest k with
    | some v => some v
    | none => if p.1 = k then some p.2 else none

/-- Result of `Parse`: a populated message, a returned Go error, or a runtime
panic raised by an unchecked type assertion in `getRetryInfo`. -/
inductive ParseResult where
  | ok (msg : HttpRequestMessage)
  | err (e : String)
  | panic

/-- The `expiration` header handling of `Parse`: an `int64` value not in the
past is copied; anything else (absent, wrong type, already past) leaves the
zero default (a warning is logged, which carries no information here). -/
def computeExpiration (rmqHeaders : List (String × AmqpValue)) (now : Int) : Int :=
  match lookupAmqp rmqHeaders "expiration" with
  | some (.vint expiration) => if expiration < now then 0 else expiration
  | _ => 0

/-- The value `msg.MessageId` holds right after the `message_id` header block
of `Parse`: the header value when it is a non-empty string, otherwise the
field's initial `""` (nothing writes `MessageId` before this block). -/
def headerMessageId (rmqHeaders : List (String × AmqpValue)) : String :=
  match lookupAmqp rmqHeaders "message_id" with
  | some (.vstr messageId) => if messageId.length = 0 then "" else messageId
  | _ => ""

/-- The final `MessageId` computed by `Parse` when the header table is
non-nil: the valid header value if any, else the md5 hex digest of the raw
body, with `"-<timestamp>"` appended when the timestamp is positive. -/
def computeMessageId (rmqHeaders : List (String × AmqpValue)) (body : List Nat)
    (timestamp : Int) : String :=
  if (headerMessageId rmqHeaders).length = 0 then
    md5Hex body ++ (if timestamp > 0 then "-" ++ toString timestamp else "")
  else headerMessageId rmqHeaders

/-- `Parse` from message.go, parameterised by the behaviour `dec` of
`json.Unmarshal` on the body bytes and by the current unix time `now`
(`time.Now().Unix()`).  Follows the Go control flow; the `logFile.Write`
diagnostics have no effect on the result and are elided.  The Go code builds
the message by successive field writes; the writes performed inside the
`rmqHeaders != nil` block are factored into `computeExpiration`,
`computeMessageId` and `getRetryInfo`, and a panic discards the partially
written local struct, so the net result is as below. -/
def Parse (dec : List Nat → Option MessageFields) (now : Int) (d : Delivery) :
    ParseResult :=
  match dec d.body with
  | none => .err "json unmarshal error"
  | some fields =>
    if fields.url.length = 0 then .err "Field 'url' is empty or missing"
    else
      let msg1 := { emptyMsg with
        url := fields.url,
        headers := flattenHeaders fields.headers,
        body := fields.body }
      let msg2 := match d.timestamp with
        | some t => { msg1 with timestamp := t }
        | none => msg1
      match d.headers with
      | none => .ok msg2
      | some rmqHeaders =>
        match getRetryInfo rmqHeaders with
        | none => .panic
        | some (retryCnt, firstRejectionTime) =>
            .ok { msg2 with
              expiration := computeExpiration rmqHeaders now,
              messageId := computeMessageId rmqHeaders d.body msg2.timestamp,
              retryCnt := retryCnt,
              firstRejectionTime := firstRejectionTime }

/-! ## Dispatcher -/

/-- The environment's behaviour for one `HttpPost` attempt:
`http.NewRequest` fails with error text `e`; `client.Do` fails with error
text `e` (timeout, connection refused, DNS failure, ...); or a response
arrives with the given numeric status code and status line, where `bodyRead`
is `some data` when `ioutil.ReadAll` succeeds and `none` when it fails. -/
inductive HttpOutcome where
  | constructionError (e : String)
  | transportError (e : String)
  | response (statusCode : Nat) (status : String) (bodyRead : Option String)

/-- `HttpPost` from message.go.  The method has a value receiver, so all field
writes happen on a local copy of `msg`; the records sent on `ackCh` are
returned as a list in execution order. -/
def httpPost (msg : HttpRequestMessage) (w : HttpOutcome) : List HttpRequestMessage :=
  match w with
  | .constructionError e =>
      [{ msg with httpErr := some e,
                  httpStatusMsg := "Invalid http request: " ++ e,
                  drop := true }]
  | .transportError e =>
      [{ msg with httpErr := some e,
                  httpStatusMsg := "Error on http POST: " ++ e }]
  | .response statusCode status bodyRead =>
      let msg1 := match bodyRead with
        | none => { msg with httpRespBody := "Error encountered when reading POST response body" }
        | some htmlData => { msg with httpStatusMsg := status, httpRespBody := htmlData }
      if 400 ≤ statusCode ∧ statusCode ≤ 499 then
        [{ msg1 with httpErr := some ("4XX status on http POST (no retry): " ++ status),
                     drop := true }]
      else if 200 ≤ statusCode ∧ statusCode ≤ 299 then
        [{ msg1 with drop := true }]
      else
        [{ msg1 with httpErr := some ("Error on http POST: " ++ status) }]

/-- The spec's disposition taxonomy for a completed attempt. -/
inductive Disposition where
  | Accepted
  | Dropped
  | RetryEligible
  deriving DecidableEq

/-- Modelled from the spec: the source encodes the disposition implicitly in
the pair `(Drop, HttpErr)` — `Drop` with an error is a permanent drop,
`Drop` without an error is a success (2xx, acknowledged and removed), and
no `Drop` means the message is negatively acknowledged for redelivery.
This decodes that encoding into the spec's tagged variant. -/
def disposition (m : HttpRequestMessage) : Disposition :=
  if m.drop then (if m.httpErr.isSome then .Dropped else .Accepted)
  else .RetryEligible

/-- Agreement on all request fields (everything except the four outcome
fields `httpStatusMsg`, `httpRespBody`, `httpErr`, `drop`). -/
def sameRequestFields (a b : HttpRequestMessage) : Prop :=
  a.messageId = b.messageId ∧ a.url = b.url ∧ a.headers = b.headers ∧
  a.body = b.body ∧ a.timestamp = b.timestamp ∧ a.expiration = b.expiration ∧
  a.retryCnt = b.retryCnt ∧ a.firstRejectionTime = b.firstRejectionTime

/-- A concrete freshly parsed message, used to instantiate theorems. -/
def sampleMsg : HttpRequestMessage :=
  { emptyMsg with messageId := "m1", url := "http://x/y", body := "payload" }

/-- The raw JSON body `{"url":"http://x/y","body":"payload"}` as bytes
(`\x7b`/`\x7d` are the brace characters). -/
def sampleBody : List Nat :=
  asciiBytes "\x7b\"url\":\"http://x/y\",\"body\":\"payload\"\x7d"

/-- What Go's `json.Unmarshal` produces for `sampleBody`: the url and body
fields, and a nil `Headers` slice (the key is absent). -/
def sampleFields : MessageFields :=
  { url := "http://x/y", headers := [], body := "payload" }

/-- A concrete stand-in for `json.Unmarshal`: decodes `sampleBody` exactly as
Go does and reports an unmarshal error on any other input. -/
def decSample (b : List Nat) : Option MessageFields :=
  if b = sampleBody then some sampleFields else none

/-- Header table carrying only a `message_id` of `"id-A"`. -/
def tblA : List (String × AmqpValue) := [("message_id", .vstr "id-A")]

/-- Header table carrying only a `message_id` of `"id-B"`. -/
def tblB : List (String × AmqpValue) := [("message_id", .vstr "id-B")]

/-- Header table whose two-entry x-death history has a `count` but no `time`
field in its second entry. -/
def tblPartial : List (String × AmqpValue) :=
  [("message_id", .vstr "m-part"),
   ("x-death", .vlist [.vtable [], .vtable [("count", .vint 3)]])]

/-- Header table whose two-entry x-death history has `count = 3` and
`time = 1600000000` in its second entry. -/
def tblC5 : List (String × AmqpValue) :=
  [("message_id", .vstr "w5"),
   ("x-death", .vlist [.vtable [], .vtable [("count", .vint 3),
                                            ("time", .vtime 1600000000)]])]

/-- The valid `message_id` carried by a delivery's header table, or `""`:
`""` also for a nil table, which skips the whole header block. -/
def deliveredMessageId (h : Option (List (String × AmqpValue))) : String :=
  match h with
  | none => ""
  | some tbl => headerMessageId tbl

/-- Whether parsing a delivery with this header table panics inside
`getRetryInfo` (a nil table skips the block and cannot panic). -/
def deliveryPanics (h : Option (List (String × AmqpValue))) : Bool :=
  match h with
  | none => false
  | some tbl => (getRetryInfo tbl).isNone

/-! ## Dispatcher theorems -/

/-- C1: the disposition of a dispatch attempt follows the fixed precedence —
construction failure gives `Dropped` with the construction error recorded;
otherwise a transport-level error gives `RetryEligible` with the error
recorded; otherwise status 400–499 gives `Dropped` with an error set,
200–299 gives `Accepted` with no error, and any other status gives
`RetryEligible` with an error carrying the status text. -/
theorem dispatch_disposition_precedence (msg : HttpRequestMessage)
    (hd : msg.drop = false) (he : msg.httpErr = none) :
    (∀ e, ∃ r, httpPost msg (.constructionError e) = [r] ∧
       disposition r = .Dropped ∧ r.httpErr = some e) ∧
    (∀ e, ∃ r, httpPost msg (.transportError e) = [r] ∧
       disposition r = .RetryEligible ∧ r.httpErr = some e) ∧
    (∀ code status b, 400 ≤ code → code ≤ 499 →
       ∃ r, httpPost msg (.response code status b) = [r] ∧
         disposition r = .Dropped ∧
         r.httpErr = some ("4XX status on http POST (no retry): " ++ status)) ∧
    (∀ code status b, 200 ≤ code → code ≤ 299 →
       ∃ r, httpPost msg (.response code status b) = [r] ∧
         disposition r = .Accepted ∧ r.httpErr = none) ∧
    (∀ code status b, ¬(400 ≤ code ∧ code ≤ 499) → ¬(200 ≤ code ∧ code ≤ 299) →
       ∃ r, httpPost msg (.response code status b) = [r] ∧
         disposition r = .RetryEligible ∧
         r.httpErr = some ("Error on http POST: " ++ status)) := by
  refine ⟨fun e => ⟨_, rfl, by simp [disposition], rfl⟩,
          fun e => ⟨_, rfl, by simp [disposition, hd], rfl⟩, ?_, ?_, ?_⟩
  · intro code status b h1 h2
    cases b <;> simp only [httpPost] <;> split_ifs <;>
      first
        | exact ⟨_, rfl, by simp [disposition], rfl⟩
        | (exfalso; omega)
  · intro code status b h1 h2
    cases b <;> simp only [httpPost] <;> split_ifs <;>
      first
        | exact ⟨_, rfl, by simp [disposition, he], he⟩
        | (exfalso; omega)
  · intro code status b h4 h2
    cases b <;> simp only [httpPost] <;> split_ifs <;>
      exact ⟨_, rfl, by simp [disposition, hd], rfl⟩

/-- C1 witness: a concrete 503 response is classified `RetryEligible` with
the status text in the error. -/
theorem dispatch_disposition_precedence_witness :
    ∃ r, httpPost sampleMsg (.response 503 "503 Service Unavailable" (some "oops")) = [r] ∧
      disposition r = .RetryEligible ∧
      r.httpErr = some ("Error on http POST: " ++ "503 Service Unavailable") :=
  (dispatch_disposition_precedence sampleMsg rfl rfl).2.2.2.2
    503 "503 Service Unavailable" (some "oops") (by omega) (by omega)

/-- C2: every invocation of the dispatcher pushes exactly one outcome record
onto the channel, on every execution path; the only way a dispatch-time error
leaves `httpPost` is inside that record (its return carries nothing else). -/
theorem dispatch_pushes_exactly_one_outcome :
    ∀ (msg : HttpRequestMessage) (w : HttpOutcome), (httpPost msg w).length = 1 := by
  intro msg w
  cases w with
  | constructionError e => rfl
  | transportError e => rfl
  | response code status b =>
      cases b <;> simp only [httpPost] <;> split_ifs <;> simp

/-- C9: `HttpPost` has a value receiver, so the outcome fields are set only on
the copy delivered to the outcome channel: the single emitted record agrees
with the caller's descriptor on every request field, and the caller's value
itself is never written. -/
theorem dispatch_frame_only_outcome_fields :
    ∀ (msg : HttpRequestMessage) (w : HttpOutcome),
      ∃ r, httpPost msg w = [r] ∧ sameRequestFields r msg := by
  intro msg w
  cases w with
  | constructionError e =>
      exact ⟨_, rfl, rfl, rfl, rfl, rfl, rfl, rfl, rfl, rfl⟩
  | transportError e =>
      exact ⟨_, rfl, rfl, rfl, rfl, rfl, rfl, rfl, rfl, rfl⟩
  | response code status b =>
      cases b <;> simp only [httpPost] <;> split_ifs <;>
        exact ⟨_, rfl, rfl, rfl, rfl, rfl, rfl, rfl, rfl, rfl⟩

/-- C10: when a response arrives but reading its body fails, the emitted
record carries the sentinel text in `HttpRespBody` while `HttpStatusMsg`
stays empty (the received status line is not recorded), and the
classification (drop flag and recorded error) is exactly what it would have
been had the body read succeeded. -/
theorem dispatch_body_read_failure (msg : HttpRequestMessage)
    (hs : msg.httpStatusMsg = "") (code : Nat) (status data : String) :
    ∃ r r', httpPost msg (.response code status none) = [r] ∧
      httpPost msg (.response code status (some data)) = [r'] ∧
      r.httpRespBody = "Error encountered when reading POST response body" ∧
      r.httpStatusMsg = "" ∧
      r.drop = r'.drop ∧ r.httpErr = r'.httpErr := by
  simp only [httpPost]
  split
  · exact ⟨_, _, rfl, rfl, rfl, hs, rfl, rfl⟩
  · split
    · exact ⟨_, _, rfl, rfl, rfl, hs, rfl, rfl⟩
    · exact ⟨_, _, rfl, rfl, rfl, hs, rfl, rfl⟩

/-- C10 witness: concrete 404 response with a failed body read. -/
theorem dispatch_body_read_failure_witness :
    ∃ r r', httpPost sampleMsg (.response 404 "404 Not Found" none) = [r] ∧
      httpPost sampleMsg (.response 404 "404 Not Found" (some "page")) = [r'] ∧
      r.httpRespBody = "Error encountered when reading POST response body" ∧
      r.httpStatusMsg = "" ∧
      r.drop = r'.drop ∧ r.httpErr = r'.httpErr :=
  dispatch_body_read_failure sampleMsg rfl 404 "404 Not Found" "page"

/-! ## Header flattening (C8) -/

theorem lookupStr_setKey_self (m : List (String × String)) (k v : String) :
    lookupStr (setKey m k v) k = some v := by
  induction m with
  | nil => simp [setKey, lookupStr]
  | cons p rest ih =>
    obtain ⟨k', v'⟩ := p
    by_cases h : k' = k
    · simp [setKey, lookupStr, h]
    · simp [setKey, lookupStr, h, ih]

theorem lookupStr_setKey_other (m : List (String × String)) (k k' v : String)
    (h : k' ≠ k) : lookupStr (setKey m k' v) k = lookupStr m k := by
  induction m with
  | nil => simp [setKey, lookupStr, h]
  | cons p rest ih =>
    obtain ⟨k2, v2⟩ := p
    by_cases h2 : k2 = k'
    · subst h2; simp [setKey, lookupStr, h]
    · simp [setKey, lookupStr, h2, ih]

/-- Folding `setKey` over a flat pair sequence looks up to the last
occurrence, falling back to the accumulator. -/
theorem lookupStr_insert_fold (ps : List (String × String))
    (acc : List (String × String)) (k : String) :
    lookupStr (ps.foldl (fun a p => setKey a p.1 p.2) acc) k =
      (match lastVal ps k with
       | some v => some v
       | none => lookupStr acc k) := by
  induction ps generalizing acc with
  | nil => simp [lastVal]
  | cons p rest ih =>
    obtain ⟨k', v'⟩ := p
    simp only [List.foldl_cons]
    rw [ih]
    simp only [lastVal]
    cases hrest : lastVal rest k with
    | some v => simp
    | none =>
      by_cases h : k' = k
      · subst h; simp [lookupStr_setKey_self]
      · simp [h, lookupStr_setKey_other _ _ _ _ h]

/-- The nested header fold equals the fold over the concatenated sequence. -/
theorem foldl_flatten_pairs (hs : List (List (String × String)))
    (acc : List (String × String)) :
    hs.foldl (fun a m => m.foldl (fun a p => setKey a p.1 p.2) a) acc =
      (hs.flatten).foldl (fun a p => setKey a p.1 p.2) acc := by
  induction hs generalizing acc with
  | nil => simp
  | cons m rest ih => simp [List.foldl_append, ih]

/-- C8: `Parse` flattens the decoded headers sequence by iterating it in
order and inserting each key/value pair, so a key occurring more than once
ends up with the value of its last occurrence in sequence order; in
particular `[{"A":"1"},{"A":"2"}]` flattens to a map with `A = "2"`. -/
theorem headers_flatten_last_wins :
    (∀ (hs : List (List (String × String))) (k : String),
       lookupStr (flattenHeaders hs) k = lastVal hs.flatten k) ∧
    lookupStr (flattenHeaders [[("A", "1")], [("A", "2")]]) "A" = some "2" := by
  constructor
  · intro hs k
    rw [flattenHeaders, foldl_flatten_pairs, lookupStr_insert_fold]
    cases lastVal hs.flatten k <;> simp [lookupStr]
  · decide

/-! ## Parse structure lemmas -/

/-- Evaluation of `Parse` on a delivery with a nil header table. -/
theorem Parse_ok_none_headers (dec : List Nat → Option MessageFields)
    (now : Int) (d : Delivery) (fields : MessageFields)
    (hdec : dec d.body = some fields) (hurl : ¬fields.url.length = 0)
    (hdrs : d.headers = none) :
    Parse dec now d = .ok
      { emptyMsg with
          url := fields.url, headers := flattenHeaders fields.headers,
          body := fields.body,
          timestamp := (match d.timestamp with | some t => t | none => 0) } := by
  obtain ⟨b, ts, h⟩ := d
  simp only at hdec hdrs
  subst hdrs
  simp only [Parse, hdec, if_neg hurl]
  cases ts <;> rfl

/-- Evaluation of `Parse` on a delivery with a non-nil header table whose
retry-info extraction completes. -/
theorem Parse_ok_some_headers (dec : List Nat → Option MessageFields)
    (now : Int) (d : Delivery) (fields : MessageFields)
    (tbl : List (String × AmqpValue)) (rc ft : Int)
    (hdec : dec d.body = some fields) (hurl : ¬fields.url.length = 0)
    (hdrs : d.headers = some tbl) (hri : getRetryInfo tbl = some (rc, ft)) :
    Parse dec now d = .ok
      { emptyMsg with
          url := fields.url, headers := flattenHeaders fields.headers,
          body := fields.body,
          timestamp := (match d.timestamp with | some t => t | none => 0),
          expiration := computeExpiration tbl now,
          messageId := computeMessageId tbl d.body
            (match d.timestamp with | some t => t | none => 0),
          retryCnt := rc, firstRejectionTime := ft } := by
  obtain ⟨b, ts, h⟩ := d
  simp only at hdec hdrs
  subst hdrs
  simp only [Parse, hdec, if_neg hurl, hri]
  cases ts <;> rfl

/-- The md5 fallback of `computeMessageId` depends only on the body and the
timestamp once neither table carries a valid `message_id`. -/
theorem computeMessageId_congr (tbl1 tbl2 : List (String × AmqpValue))
    (body : List Nat) (ts : Int)
    (h1 : headerMessageId tbl1 = "") (h2 : headerMessageId tbl2 = "") :
    computeMessageId tbl1 body ts = computeMessageId tbl2 body ts := by
  simp [computeMessageId, h1, h2]

/-- `getRetryInfo` on a two-entry history with a well-typed second entry. -/
theorem getRetryInfo_second_entry (tbl ent : List (String × AmqpValue))
    (e1 : AmqpValue) (c : Int)
    (hx : lookupAmqp tbl "x-death" = some (.vlist [e1, .vtable ent]))
    (hc : lookupAmqp ent "count" = some (.vint c)) :
    (∀ u, lookupAmqp ent "time" = some (.vtime u) → getRetryInfo tbl = some (c, u)) ∧
    (lookupAmqp ent "time" = some .vnil → getRetryInfo tbl = some (c, 0)) := by
  constructor
  · intro u ht; simp [getRetryInfo, hx, hc, ht]
  · intro ht; simp [getRetryInfo, hx, hc, ht]

/-! ## Parser claim theorems -/

/-- C3 (behaviour at the failing input): an envelope with a nil AMQP header
table and a valid body parses successfully, yet `MessageId` is left empty —
the md5-fallback computation sits inside the `rmqHeaders != nil` block, so a
nil table skips it, contradicting the struct's own documentation that the id
is either the header value or the body's md5 hash. -/
theorem parse_nil_headers_leaves_message_id_empty :
    ∃ m, Parse decSample 1700000000 ⟨sampleBody, none, none⟩ = .ok m ∧
      m.messageId = "" ∧ m.url = "http://x/y" :=
  ⟨_, rfl, rfl, rfl⟩

/-- C4 counterexample: an `x-death` attribute of the wrong runtime type (a
string) does not default the retry fields to 0 — the unchecked type assertion
`deathHistory.([]interface\x7b\x7d)` panics, so `Parse` crashes rather than
succeed. -/
theorem xdeath_wrong_type_panics :
    Parse decSample 0 ⟨sampleBody, none, some [("x-death", .vstr "boom")]⟩ = .panic :=
  rfl

/-- C4 amended: the retry-info extraction defaults both fields to 0 when the
`x-death` attribute is absent or is a list whose length is not 2, and it does
not fail on those shapes; but when the attribute is present with a non-list
runtime type, the extraction panics instead of defaulting. -/
theorem retry_info_default_or_panic :
    (∀ tbl, lookupAmqp tbl "x-death" = none → getRetryInfo tbl = some (0, 0)) ∧
    (∀ tbl l, lookupAmqp tbl "x-death" = some (.vlist l) → l.length ≠ 2 →
       getRetryInfo tbl = some (0, 0)) ∧
    (∀ tbl v, lookupAmqp tbl "x-death" = some v → (∀ l, v ≠ .vlist l) →
       getRetryInfo tbl = none) := by
  refine ⟨?_, ?_, ?_⟩
  · intro tbl h; simp [getRetryInfo, h]
  · intro tbl l h hlen
    simp only [getRetryInfo, h]
    rcases l with _ | ⟨a, _ | ⟨b, _ | ⟨c, rest⟩⟩⟩
    · rfl
    · rfl
    · exact absurd rfl hlen
    · rfl
  · intro tbl v h hv
    simp only [getRetryInfo, h]

/-- C4 amended witness: concrete instances of the three branches — absent
attribute, one-entry list, and string-typed attribute. -/
theorem retry_info_default_or_panic_witness :
    getRetryInfo [] = some (0, 0) ∧
    getRetryInfo [("x-death", .vlist [.vtable []])] = some (0, 0) ∧
    getRetryInfo [("x-death", .vstr "boom")] = none :=
  ⟨retry_info_default_or_panic.1 [] rfl,
   retry_info_default_or_panic.2.1 [("x-death", .vlist [.vtable []])]
     [.vtable []] rfl (by decide),
   retry_info_default_or_panic.2.2 [("x-death", .vstr "boom")] (.vstr "boom")
     rfl (fun l h => AmqpValue.noConfusion h)⟩

/-- C5: on an envelope whose `x-death` attribute is a two-entry list with a
well-typed second entry, `Parse` succeeds and takes the second entry's
`count` as `RetryCnt` and its `time`, as unix seconds, as
`FirstRejectionTime`; a present-but-nil `time` yields 0. -/
theorem parse_reads_second_death_entry
    (dec : List Nat → Option MessageFields) (now : Int) (d : Delivery)
    (fields : MessageFields) (tbl ent : List (String × AmqpValue))
    (e1 : AmqpValue) (c : Int)
    (hdec : dec d.body = some fields) (hurl : fields.url.length ≠ 0)
    (hdrs : d.headers = some tbl)
    (hx : lookupAmqp tbl "x-death" = some (.vlist [e1, .vtable ent]))
    (hc : lookupAmqp ent "count" = some (.vint c)) :
    (∀ u, lookupAmqp ent "time" = some (.vtime u) →
       ∃ m, Parse dec now d = .ok m ∧ m.retryCnt = c ∧ m.firstRejectionTime = u) ∧
    (lookupAmqp ent "time" = some .vnil →
       ∃ m, Parse dec now d = .ok m ∧ m.retryCnt = c ∧ m.firstRejectionTime = 0) := by
  constructor
  · intro u ht
    exact ⟨_, Parse_ok_some_headers dec now d fields tbl c u hdec hurl hdrs
      ((getRetryInfo_second_entry tbl ent e1 c hx hc).1 u ht), rfl, rfl⟩
  · intro ht
    exact ⟨_, Parse_ok_some_headers dec now d fields tbl c 0 hdec hurl hdrs
      ((getRetryInfo_second_entry tbl ent e1 c hx hc).2 ht), rfl, rfl⟩

/-- C5 witness: a concrete delivery whose two-entry history carries
`count = 3`, `time = 1600000000`. -/
theorem parse_reads_second_death_entry_witness :
    ∃ m, Parse decSample 0 ⟨sampleBody, none, some tblC5⟩ = .ok m ∧
      m.retryCnt = 3 ∧ m.firstRejectionTime = 1600000000 :=
  (parse_reads_second_death_entry decSample 0 ⟨sampleBody, none, some tblC5⟩
      sampleFields tblC5 [("count", .vint 3), ("time", .vtime 1600000000)]
      (.vtable []) 3 rfl (by decide) rfl rfl rfl).1 1600000000 rfl

/-- C6 counterexample: a two-entry history whose second entry carries only a
`count` parses to `RetryCnt = 3` with `FirstRejectionTime = 0` — exactly one
of the two fields non-zero while the other took its default. -/
theorem retry_fields_partially_populated :
    ∃ m, Parse decSample 0 ⟨sampleBody, none, some tblPartial⟩ = .ok m ∧
      m.retryCnt = 3 ∧ m.firstRejectionTime = 0 ∧ m.retryCnt ≠ 0 :=
  ⟨_, rfl, rfl, rfl, by decide⟩

/-- C6 amended: the two fields default to 0 together when the `x-death`
attribute is absent, but on a two-entry history they are extracted
independently from the second entry, each falling back to 0 on its own when
its field is missing — so one can be populated while the other defaults. -/
theorem retry_fields_extracted_independently :
    (∀ tbl, lookupAmqp tbl "x-death" = none → getRetryInfo tbl = some (0, 0)) ∧
    (∀ tbl ent e1 (c : Int),
       lookupAmqp tbl "x-death" = some (.vlist [e1, .vtable ent]) →
       lookupAmqp ent "count" = some (.vint c) → lookupAmqp ent "time" = none →
       getRetryInfo tbl = some (c, 0)) ∧
    (∀ tbl ent e1 (u : Int),
       lookupAmqp tbl "x-death" = some (.vlist [e1, .vtable ent]) →
       lookupAmqp ent "count" = none → lookupAmqp ent "time" = some (.vtime u) →
       getRetryInfo tbl = some (0, u)) := by
  refine ⟨?_, ?_, ?_⟩
  · intro tbl h; simp [getRetryInfo, h]
  · intro tbl ent e1 c hx hc ht; simp [getRetryInfo, hx, hc, ht]
  · intro tbl ent e1 u hx hc ht; simp [getRetryInfo, hx, hc, ht]

/-- C6 amended witness: count-only and time-only second entries. -/
theorem retry_fields_extracted_independently_witness :
    getRetryInfo [("x-death", .vlist [.vtable [], .vtable [("count", .vint 3)]])]
      = some (3, 0) ∧
    getRetryInfo [("x-death", .vlist [.vtable [], .vtable [("time", .vtime 7)]])]
      = some (0, 7) :=
  ⟨retry_fields_extracted_independently.2.1
     [("x-death", .vlist [.vtable [], .vtable [("count", .vint 3)]])]
     [("count", .vint 3)] (.vtable []) 3 rfl rfl rfl,
   retry_fields_extracted_independently.2.2
     [("x-death", .vlist [.vtable [], .vtable [("time", .vtime 7)]])]
     [("time", .vtime 7)] (.vtable []) 7 rfl rfl rfl⟩

/-- C7 counterexample: two envelopes agreeing on raw body bytes and creation
timestamp but carrying different `message_id` attributes parse to different
`MessageId`s, so `MessageId` is not a function of (body bytes, CreatedAt)
alone. -/
theorem message_id_depends_on_header_attribute :
    ∃ m1 m2,
      Parse decSample 0 ⟨sampleBody, some 5, some tblA⟩ = .ok m1 ∧
      Parse decSample 0 ⟨sampleBody, some 5, some tblB⟩ = .ok m2 ∧
      m1.messageId ≠ m2.messageId :=
  ⟨_, _, rfl, rfl, by decide⟩

/-- C7 amended: for envelopes whose body decodes with a non-empty url and
whose header table does not make the retry extraction panic, `Parse`
succeeds; and two such parses agreeing on raw body bytes and creation
timestamp, neither carrying a valid non-empty `message_id` attribute and
with header tables either both nil or both non-nil, yield the same
`MessageId` (even at different wall-clock times). -/
theorem parse_message_id_deterministic
    (dec : List Nat → Option MessageFields) (now1 now2 : Int) (d1 d2 : Delivery)
    (fields : MessageFields)
    (hdec : dec d1.body = some fields) (hurl : fields.url.length ≠ 0)
    (hb : d1.body = d2.body) (ht : d1.timestamp = d2.timestamp)
    (hid1 : deliveredMessageId d1.headers = "")
    (hid2 : deliveredMessageId d2.headers = "")
    (hp1 : deliveryPanics d1.headers = false)
    (hp2 : deliveryPanics d2.headers = false)
    (hpres : d1.headers.isSome = d2.headers.isSome) :
    ∃ m1 m2, Parse dec now1 d1 = .ok m1 ∧ Parse dec now2 d2 = .ok m2 ∧
      m1.messageId = m2.messageId := by
  obtain ⟨b1, t1, h1⟩ := d1
  obtain ⟨b2, t2, h2⟩ := d2
  simp only at hdec hb ht hid1 hid2 hp1 hp2 hpres
  subst hb
  subst ht
  cases h1 with
  | none =>
    cases h2 with
    | none =>
      exact ⟨_, _,
        Parse_ok_none_headers dec now1 ⟨b1, t1, none⟩ fields hdec hurl rfl,
        Parse_ok_none_headers dec now2 ⟨b1, t1, none⟩ fields hdec hurl rfl, rfl⟩
    | some tbl2 => simp at hpres
  | some tbl1 =>
    cases h2 with
    | none => simp at hpres
    | some tbl2 =>
      simp only [deliveryPanics] at hp1 hp2
      obtain ⟨⟨rc1, ft1⟩, hri1⟩ : ∃ p, getRetryInfo tbl1 = some p := by
        cases hg : getRetryInfo tbl1 with
        | none => rw [hg] at hp1; simp at hp1
        | some p => exact ⟨p, rfl⟩
      obtain ⟨⟨rc2, ft2⟩, hri2⟩ : ∃ p, getRetryInfo tbl2 = some p := by
        cases hg : getRetryInfo tbl2 with
        | none => rw [hg] at hp2; simp at hp2
        | some p => exact ⟨p, rfl⟩
      simp only [deliveredMessageId] at hid1 hid2
      exact ⟨_, _,
        Parse_ok_some_headers dec now1 ⟨b1, t1, some tbl1⟩ fields tbl1 rc1 ft1
          hdec hurl rfl hri1,
        Parse_ok_some_headers dec now2 ⟨b1, t1, some tbl2⟩ fields tbl2 rc2 ft2
          hdec hurl rfl hri2,
        computeMessageId_congr tbl1 tbl2 b1 _ hid1 hid2⟩

/-- C7 amended witness: the same envelope parsed at two different times with
an empty (but non-nil) header table gets the same `MessageId`. -/
theorem parse_message_id_deterministic_witness :
    ∃ m1 m2,
      Parse decSample 10 ⟨sampleBody, none, some []⟩ = .ok m1 ∧
      Parse decSample 20 ⟨sampleBody, none, some []⟩ = .ok m2 ∧
      m1.messageId = m2.messageId :=
  parse_message_id_deterministic decSample 10 20
    ⟨sampleBody, none, some []⟩ ⟨sampleBody, none, some []⟩
    sampleFields rfl (by decide) rfl rfl rfl rfl rfl rfl rfl
